import Mathlib

/-!
Verification of the IG data pipeline: the raw-payload adapter
(`collectors/instagram/adapter.py`), the paginated fetcher
(`collectors/instagram/fetcher.py`) and the similarity-network generator
(`backend/generators/instagram_network.py`), shallowly embedded in Lean.

Python's untyped JSON-like values are embedded as the inductive `JVal`
(dicts become insertion-ordered association lists, numbers become
rationals).  Code paths on which the Python source would raise an
exception are embedded as `Option`-returning functions producing `none`
there.  The wall clock consulted by `datetime.utcnow()` is passed as an
explicit argument.  Real-valued computations of the network generator
(`math.sqrt`) are embedded over `ℝ`.
-/

set_option maxHeartbeats 1000000

/-- An untyped JSON-like Python value as passed around by the adapter and
fetcher: `None`, booleans, numbers (modelled as rationals), strings, lists,
and dicts (modelled as insertion-ordered association lists, keys unique in
any value Python can actually build). -/
inductive JVal where
  | null
  | bool (b : Bool)
  | num (q : ℚ)
  | str (s : String)
  | arr (xs : List JVal)
  | obj (kvs : List (String × JVal))
deriving Repr

/- Structural equality test on `JVal`, modelling Python `==` on JSON-like
data (numeric cross-type coercions such as `True == 1` never arise on the
string-keyed payload comparisons performed in this code). -/
mutual
def JVal.beq : JVal → JVal → Bool
  | .null, .null => true
  | .bool a, .bool b => a == b
  | .num a, .num b => a == b
  | .str a, .str b => a == b
  | .arr xs, .arr ys => JVal.beqList xs ys
  | .obj xs, .obj ys => JVal.beqPairs xs ys
  | _, _ => false
def JVal.beqList : List JVal → List JVal → Bool
  | [], [] => true
  | x :: xs, y :: ys => JVal.beq x y && JVal.beqList xs ys
  | _, _ => false
def JVal.beqPairs : List (String × JVal) → List (String × JVal) → Bool
  | [], [] => true
  | (k1, v1) :: xs, (k2, v2) :: ys => k1 == k2 && JVal.beq v1 v2 && JVal.beqPairs xs ys
  | _, _ => false
end

mutual
theorem JVal.beq_iff : ∀ a b : JVal, JVal.beq a b = true ↔ a = b
  | .null, b => by cases b <;> simp [JVal.beq]
  | .bool a, b => by cases b <;> simp [JVal.beq]
  | .num a, b => by cases b <;> simp [JVal.beq]
  | .str a, b => by cases b <;> simp [JVal.beq]
  | .arr xs, b => by
      cases b <;> simp [JVal.beq]
      exact JVal.beqList_iff xs _
  | .obj xs, b => by
      cases b <;> simp [JVal.beq]
      exact JVal.beqPairs_iff xs _
theorem JVal.beqList_iff : ∀ xs ys : List JVal, JVal.beqList xs ys = true ↔ xs = ys
  | [], ys => by cases ys <;> simp [JVal.beqList]
  | x :: xs, ys => by
      cases ys with
      | nil => simp [JVal.beqList]
      | cons y ys =>
          simp [JVal.beqList, JVal.beq_iff x y, JVal.beqList_iff xs ys]
theorem JVal.beqPairs_iff : ∀ xs ys : List (String × JVal),
    JVal.beqPairs xs ys = true ↔ xs = ys
  | [], ys => by cases ys <;> simp [JVal.beqPairs]
  | (k, v) :: xs, ys => by
      cases ys with
      | nil => simp [JVal.beqPairs]
      | cons y ys =>
          obtain ⟨k2, v2⟩ := y
          simp [JVal.beqPairs, JVal.beq_iff v v2, JVal.beqPairs_iff xs ys]
end

instance : DecidableEq JVal := fun a b =>
  decidable_of_iff (JVal.beq a b = true) (JVal.beq_iff a b)

instance : BEq JVal := ⟨JVal.beq⟩

instance : LawfulBEq JVal where
  eq_of_beq h := (JVal.beq_iff _ _).mp h
  rfl := (JVal.beq_iff _ _).mpr rfl

namespace JVal

/-- Python truthiness (`bool(v)`): `None`, `False`, `0`, `""`, `[]`, `{}`
are falsy, everything else truthy. -/
def truthy : JVal → Bool
  | .null => false
  | .bool b => b
  | .num q => decide (q ≠ 0)
  | .str s => decide (s ≠ "")
  | .arr xs => decide (xs ≠ [])
  | .obj kvs => decide (kvs ≠ [])

/-- `isinstance(v, dict)`. -/
def isDict : JVal → Bool
  | .obj _ => true
  | _ => false

/-- `isinstance(v, list)`. -/
def isList : JVal → Bool
  | .arr _ => true
  | _ => false

end JVal

/-- `a or b` on Python values: `a` when truthy, else `b`. -/
def orTruthy (a b : JVal) : JVal := if a.truthy then a else b

/-- Presence-aware lookup in an insertion-ordered Python dict: the value of
the first binding of `k`, `none` when the key is absent (models `k in d`
plus `d[k]`). -/
def dictGet (d : List (String × JVal)) (k : String) : Option JVal :=
  (d.find? (fun p => p.1 = k)).map (·.2)

/-- `d.get(k)`: like `dictGet` but Python returns `None` for absent keys. -/
def pyGet (d : List (String × JVal)) (k : String) : JVal :=
  (dictGet d k).getD .null

/-- `d[k] = v` on a Python dict: replace the value in place if the key is
present, else append the binding at the end. -/
def dictSet (d : List (String × JVal)) (k : String) (v : JVal) :
    List (String × JVal) :=
  if (d.find? (fun p => p.1 = k)).isSome then
    d.map (fun p => if p.1 = k then (p.1, v) else p)
  else d ++ [(k, v)]

/-- `d.setdefault(k, v)`: insert only when the key is absent. -/
def dictSetdefault (d : List (String × JVal)) (k : String) (v : JVal) :
    List (String × JVal) :=
  if (dictGet d k).isSome then d else d ++ [(k, v)]

/-- `d.update(src)`: assign every binding of `src`, in order, into `d`
(overwriting values of existing keys). -/
def dictUpdate (d src : List (String × JVal)) : List (String × JVal) :=
  src.foldl (fun acc p => dictSet acc p.1 p.2) d

/-! ## Raw payload adapter (`collectors/instagram/adapter.py`) -/

/-- Models Python `str(x)` as used by `extract_posts` when wrapping
primitive list items as caption objects.  The exact rendering is
irrelevant to every property below; any fixed printer models it. -/
def pyStr (v : JVal) : String := toString (repr v)

/-- The candidate container fields scanned by `extract_posts`
(adapter.py line 125). -/
def postCandidates : List String :=
  ["items", "data", "media", "posts", "edges", "nodes", "results"]

/-- First candidate field of a dict holding a nonempty list
(the `for c in candidates` loop of `extract_posts`). -/
def firstCandidateList (kvs : List (String × JVal)) : Option (List JVal) :=
  postCandidates.findSome? (fun c =>
    match dictGet kvs c with
    | some (.arr ys) => if ys ≠ [] then some ys else none
    | _ => none)

/-- `{'text': str(x)}`: wrapping of a non-dict list item (adapter.py
line 134). -/
def wrapItem (x : JVal) : JVal := .obj [("text", .str (pyStr x))]

/-- The single-post object built from caption/text-like top-level fields
(adapter.py lines 148-153): the fixed keys, in that order, that are
present in `raw`. -/
def captionPost (kvs : List (String × JVal)) : List (String × JVal) :=
  ["id", "caption", "text", "likes", "comments", "hashtags", "timestamp"].filterMap
    (fun k => (dictGet kvs k).map (fun v => (k, v)))

/-- `extract_posts(raw)` (adapter.py lines 114-156).  `none` models the
`AttributeError` Python raises when calling `.get` on a truthy value that
is neither a list nor a dict. -/
def extract_posts (raw : JVal) : Option (List JVal) :=
  if ¬ raw.truthy then some []
  else
    match raw with
    | .arr xs => some xs
    | .obj kvs =>
      match firstCandidateList kvs with
      | some ys => some (if ys.all JVal.isDict then ys else ys.map wrapItem)
      | none =>
        -- posts inside raw['data'][c]; this branch does not re-check
        -- that the items are dicts
        let fromData : Option (List JVal) :=
          match dictGet kvs "data" with
          | some (.obj dkvs) =>
            postCandidates.findSome? (fun c =>
              match dictGet dkvs c with
              | some (.arr ys) => if ys ≠ [] then some ys else none
              | _ => none)
          | _ => none
        match fromData with
        | some ys => some ys
        | none =>
          if ["caption", "text", "comment", "message"].any
              (fun k => (dictGet kvs k).isSome) then
            some [.obj (captionPost kvs)]
          else some []
    | _ => none

/-- The top-level user fields merged with `setdefault` when a record looks
like user info (adapter.py line 174). -/
def userInfoFields : List String :=
  ["username", "bio", "followers", "following", "posts_count", "profile_pic"]

/-- `'user' in raw` for the record-classification test (adapter.py line
168): key membership on dicts, element membership on lists, substring test
on strings; `none` models the `TypeError` on numbers/booleans/`None`. -/
def pyContainsUser : JVal → Option Bool
  | .obj kvs => some (kvs.any (fun p => p.1 == "user"))
  | .arr xs => some (xs.any (fun x => x == .str "user"))
  | .str s => some (((s.splitOn "user").length > 1))
  | _ => none

/-- The nested-`'user'`-dict of a record, when the merge loop of
`normalize_snapshot` would `update` from it: the record is a dict, its
`raw` field (after `or {}`) is a dict, and that dict's `user` value is a
dict. -/
def userDictOf (rec : JVal) : Option (List (String × JVal)) :=
  match rec with
  | .obj rkvs =>
    match orTruthy (pyGet rkvs "raw") (.obj []) with
    | .obj rawkvs =>
      match dictGet rawkvs "user" with
      | some (.obj ukvs) => some ukvs
      | _ => none
    | _ => none
  | _ => none

/-- The identity-info merge performed for one user-like record
(adapter.py lines 169-181): `dict.update` from `raw['user']` when it is a
dict (overwriting), then `setdefault` for the truthy top-level info
fields, then `setdefault` for `username`/`bio` inside `raw['data']`. -/
def mergeUserInfo (user_info rawkvs : List (String × JVal)) :
    List (String × JVal) :=
  -- prefer raw['user'] if present (dict.update: overwrites)
  let ui1 :=
    match dictGet rawkvs "user" with
    | some (.obj ukvs) => dictUpdate user_info ukvs
    | _ => user_info
  -- top-level info fields, setdefault, only truthy values
  let ui2 := userInfoFields.foldl
    (fun ui k =>
      match dictGet rawkvs k with
      | some v => if v.truthy then dictSetdefault ui k v else ui
      | none => ui) ui1
  -- raw['data'] fields, setdefault, presence only
  match dictGet rawkvs "data" with
  | some (.obj dkvs) =>
    ["username", "bio"].foldl
      (fun ui k =>
        match dictGet dkvs k with
        | some v => dictSetdefault ui k v
        | none => ui) ui2
  | _ => ui2

/-- One iteration of the `for rec in records` loop of `normalize_snapshot`
(adapter.py lines 164-185), acting on the `(user_info, posts)` state.
`none` models the exceptions Python raises on malformed records (a
non-dict record, a truthy non-dict non-list `raw`, a non-string truthy
`endpoint` reaching `.lower()`, ...). -/
def stepRecord (st : List (String × JVal) × List JVal) (rec : JVal) :
    Option (List (String × JVal) × List JVal) :=
  match rec with
  | .obj rkvs =>
    -- endpoint = rec.get('endpoint') or rec.get('type') or ''
    let endpoint := orTruthy (orTruthy (pyGet rkvs "endpoint") (pyGet rkvs "type")) (.str "")
    -- raw = rec.get('raw') or {}
    let raw := orTruthy (pyGet rkvs "raw") (.obj [])
    -- 'user' in raw or endpoint.lower().startswith('user') or endpoint == 'user_info'
    -- (short-circuit left to right; .lower() on a non-string raises)
    match pyContainsUser raw with
    | none => none
    | some c1 =>
      let looksUser : Option Bool :=
        if c1 then some true
        else
          match endpoint with
          | .str s => some (s.toLower.startsWith "user" || endpoint == .str "user_info")
          | _ => none
      match looksUser with
      | none => none
      | some isUser =>
        let merged : Option (List (String × JVal)) :=
          if isUser then
            match raw with
            | .obj rawkvs => some (mergeUserInfo st.1 rawkvs)
            | _ => none  -- raw.get('user') on a non-dict raises
          else some st.1
        match merged with
        | none => none
        | some ui =>
          match extract_posts raw with
          | none => none
          | some extracted => some (ui, st.2 ++ extracted)
  | _ => none

/-- The canonical per-identity snapshot document built by
`normalize_snapshot` (adapter.py lines 191-199). `created_at` carries the
`datetime.utcnow()` wall-clock value, passed in explicitly. -/
structure Snapshot where
  platform : String
  user_id : String
  user_info : List (String × JVal)
  posts : List JVal
  total_posts : ℕ
  created_at : ℚ
  source_count : ℕ
deriving DecidableEq, Repr

/-- `normalize_snapshot(username, records)` (adapter.py lines 159-200),
with the wall clock `now` made explicit. -/
def normalize_snapshot (username : String) (records : List JVal) (now : ℚ) :
    Option Snapshot := do
  let (user_info, posts) ← records.foldlM stepRecord ([], [])
  -- fallback: minimal user_info
  let ui := if user_info = [] then [("username", JVal.str username)] else user_info
  pure { platform := "instagram"
         user_id := username
         user_info := ui
         posts := posts
         total_posts := posts.length
         created_at := now
         source_count := records.length }

/-- Erase the regeneration timestamp of a snapshot (for comparing two
regenerations performed at different wall-clock instants). -/
def stripTime (s : Snapshot) : Snapshot := { s with created_at := 0 }

/-! ## Similarity network generator
(`backend/generators/instagram_network.py`) -/

/-- `sum(a * b for a, b in zip(vec1, vec2))` (instagram_network.py
line 28). -/
def dotProduct (vec1 vec2 : List ℝ) : ℝ :=
  ((vec1.zip vec2).map (fun p => p.1 * p.2)).sum

/-- `math.sqrt(sum(a * a for a in vec))` (instagram_network.py
lines 29-30). -/
noncomputable def magnitude (vec : List ℝ) : ℝ :=
  Real.sqrt ((vec.map (fun a => a * a)).sum)

/-- `cosine_similarity(vec1, vec2)` (instagram_network.py lines 23-35),
with Python floats modelled as reals. -/
noncomputable def cosine_similarity (vec1 vec2 : List ℝ) : ℝ :=
  if vec1.length ≠ vec2.length then 0
  else if magnitude vec1 = 0 ∨ magnitude vec2 = 0 then 0
  else dotProduct vec1 vec2 / (magnitude vec1 * magnitude vec2)

/-- `SIMILARITY_THRESHOLD` (instagram_network.py line 20). -/
noncomputable def SIMILARITY_THRESHOLD : ℝ := 0.7

/-- Python `round(x, 3)`: the value rounded to 3 decimal places (the
half-way tie-break never matters below; nearest-integer rounding of
`1000 * x` models it). -/
noncomputable def round3 (x : ℝ) : ℝ := (round (x * 1000) : ℤ) / 1000

/-- A creator node as consumed by `build_network_edges`: only its `id` is
read when building edges; the display fields built by
`build_creator_nodes` are passthrough there and omitted. -/
structure Creator where
  id : String
deriving DecidableEq, Repr

/-- One similarity edge (instagram_network.py lines 166-173).
`types_style` is the single `'style'` entry of the edge's `types`
breakdown map. -/
structure Edge where
  source : String
  target : String
  weight : ℝ
  types_style : ℝ

/-- Lookup in the `{user_id: embedding_vector}` dict. -/
def lookupEmb (embeddings : List (String × List ℝ)) (id1 : String) :
    Option (List ℝ) :=
  (embeddings.find? (fun p => p.1 = id1)).map (·.2)

/-- The body of the inner loop of `build_network_edges` for the ordered
pair `(id1, id2)` (instagram_network.py lines 160-173): the singleton
edge when both creators have an embedding and their similarity reaches
the threshold, else nothing. -/
noncomputable def edgeCandidate (embeddings : List (String × List ℝ))
    (id1 id2 : String) : List Edge :=
  match lookupEmb embeddings id1, lookupEmb embeddings id2 with
  | some v1, some v2 =>
    let similarity := cosine_similarity v1 v2
    if SIMILARITY_THRESHOLD ≤ similarity then
      [{ source := id1, target := id2,
         weight := round3 similarity, types_style := round3 similarity }]
    else []
  | _, _ => []

/-- `build_network_edges(creators, embeddings)` (instagram_network.py
lines 134-177).  The double `enumerate` loop skipping `i >= j` visits
exactly the pairs in which `creator1` occurs strictly before `creator2`,
in that order. -/
noncomputable def build_network_edges : List Creator → List (String × List ℝ) → List Edge
  | [], _ => []
  | c :: cs, embeddings =>
    (cs.map (fun c2 => edgeCandidate embeddings c.id c2.id)).flatten
      ++ build_network_edges cs embeddings

/-! ## Paginated fetcher (`collectors/instagram/fetcher.py`) -/

/-- The conventional cursor field names scanned by `_extract_next_cursor`
(fetcher.py line 165). -/
def conventionalCursorKeys : List String :=
  ["next_max_id", "max_id", "next_cursor", "cursor", "end_cursor"]

/-- The `for k in (...): if d.get(k): return d.get(k)` scan over the
conventional cursor keys of one dict. -/
def convLookup (kvs : List (String × JVal)) : Option JVal :=
  conventionalCursorKeys.findSome? (fun k =>
    match dictGet kvs k with
    | some v => if v.truthy then some v else none
    | none => none)

/- The recursive `find_key` fallbacks of `_extract_next_cursor`
(fetcher.py lines 182-196) and `_find_candidate_max_id` step 4 (lines
285-298), parameterised by the key set: depth-first over dict entries in
insertion order (key test before descending into the value) and over list
elements in order. -/
mutual
def findKeyIn (keys : List String) : JVal → Option JVal
  | .obj kvs => findKeyInPairs keys kvs
  | .arr xs => findKeyInElems keys xs
  | _ => none
def findKeyInPairs (keys : List String) : List (String × JVal) → Option JVal
  | [] => none
  | (kk, vv) :: rest =>
    if keys.contains kk && vv.truthy then some vv
    else
      match findKeyIn keys vv with
      | some r => some r
      | none => findKeyInPairs keys rest
def findKeyInElems (keys : List String) : List JVal → Option JVal
  | [] => none
  | el :: rest =>
    match findKeyIn keys el with
    | some r => some r
    | none => findKeyInElems keys rest
end

/-- The `page_info` probe inside the `data` wrapper of
`_extract_next_cursor` (fetcher.py lines 175-180; the second
`has_next_page` check returns the same value and is dead). -/
def dataPageInfoCursor (dkvs : List (String × JVal)) : Option JVal :=
  match orTruthy (pyGet dkvs "page_info") (.obj []) with
  | .obj pkvs =>
    match dictGet pkvs "end_cursor" with
    | some v => if v.truthy then some v else none
    | none => none
  | _ => none

/-- `_extract_next_cursor(d)` (fetcher.py lines 155-196; the local copy
inside `fetch_and_store_paged`, lines 562-598, is identical). -/
def extract_next_cursor (d : JVal) : Option JVal :=
  match d with
  | .obj kvs =>
    match convLookup kvs with
    | some v => some v
    | none =>
      let fromData : Option JVal :=
        -- if d.get('data') and isinstance(d.get('data'), dict):
        match dictGet kvs "data" with
        | some dv =>
          if dv.truthy then
            match dv with
            | .obj dkvs =>
              match convLookup dkvs with
              | some v => some v
              | none => dataPageInfoCursor dkvs
            | _ => none
          else none
        | none => none
      match fromData with
      | some v => some v
      | none => findKeyIn conventionalCursorKeys (.obj kvs)
  | _ => none

/- `find_page_info_end_cursor` (fetcher.py lines 238-253): a dict's own
`page_info.end_cursor` first, then depth-first through its values, then
through list elements in order. -/
mutual
def findPageInfoEndCursor : JVal → Option JVal
  | .obj kvs =>
    let own : Option JVal :=
      match dictGet kvs "page_info" with
      | some (.obj pkvs) =>
        match dictGet pkvs "end_cursor" with
        | some v => if v.truthy then some v else none
        | none => none
      | _ => none
    match own with
    | some v => some v
    | none => findPIECPairs kvs
  | .arr xs => findPIECElems xs
  | _ => none
def findPIECPairs : List (String × JVal) → Option JVal
  | [] => none
  | (_, vv) :: rest =>
    match findPageInfoEndCursor vv with
    | some r => some r
    | none => findPIECPairs rest
def findPIECElems : List JVal → Option JVal
  | [] => none
  | el :: rest =>
    match findPageInfoEndCursor el with
    | some r => some r
    | none => findPIECElems rest
end

/-- The `edges`/`items` probe of `find_last_node_id` for one candidate
value (fetcher.py lines 263-269): the last element of a nonempty list,
its `node` sub-object if present, and the first truthy
id/pk/shortcode/cursor field. -/
def lastNodeCandidate (v : JVal) : Option JVal :=
  match v with
  | .arr ys =>
    match ys.getLast? with
    | some (.obj lkvs) =>
      let node : JVal :=
        if (dictGet lkvs "node").isSome then pyGet lkvs "node" else .obj lkvs
      ["id", "pk", "shortcode", "cursor"].findSome? (fun key =>
        match node with
        | .obj nkvs =>
          match dictGet nkvs key with
          | some w => if w.truthy then some w else none
          | none => none
        | _ => none)
    | _ => none
  | _ => none

/- `find_last_node_id` (fetcher.py lines 260-278): for dicts, each entry
is probed as an `edges`/`items` container and then descended into; list
elements are visited in reversed order. -/
mutual
def findLastNodeId : JVal → Option JVal
  | .obj kvs => findLastNodePairs kvs
  | .arr xs => findLastNodeElems xs
  | _ => none
def findLastNodePairs : List (String × JVal) → Option JVal
  | [] => none
  | (k, v) :: rest =>
    match (if ["edges", "items"].contains k then lastNodeCandidate v else none) with
    | some r => some r
    | none =>
      match findLastNodeId v with
      | some r => some r
      | none => findLastNodePairs rest
def findLastNodeElems : List JVal → Option JVal
  | [] => none
  | el :: rest =>
    match findLastNodeElems rest with
    | some r => some r
    | none => findLastNodeId el
end

/-- `_find_candidate_max_id(data)` (fetcher.py lines 223-300). -/
def find_candidate_max_id (data : JVal) : Option JVal :=
  match extract_next_cursor data with
  | some v => some v
  | none =>
    match findPageInfoEndCursor data with
    | some v => some v
    | none =>
      match findLastNodeId data with
      | some v => some v
      | none => findKeyIn ["max_id", "next_max_id"] data

/-- `_extract_next_cursor(data) or _find_candidate_max_id(data)`: the full
cursor resolution applied to each page in `fetch_and_store_paged`
(fetcher.py lines 640, 646, 713; every value either function returns is
truthy, so Python's `or` is `Option` choice). -/
def resolveCursor (data : JVal) : Option JVal :=
  match extract_next_cursor data with
  | some v => some v
  | none => find_candidate_max_id data

/-- The query parameters `fetch_user_posts` / `fetch_user_reels` actually
send (fetcher.py lines 386-390 and 443-448): `max_id` is included only
when truthy. -/
structure TikhubParams where
  user_id : String
  count : ℤ
  max_id : Option String
deriving DecidableEq, Repr

/-- The `count`-capping prologue and parameter construction of
`fetch_user_posts` (fetcher.py lines 377-390): the parameters sent and
whether the TikHub-limit warning was emitted.  This path performs no
raising operation; the HTTP call and persistence that follow are external
effects outside the embedding. -/
def fetch_user_posts_request (user_id : String) (count : ℤ)
    (max_id : Option String) : TikhubParams × Bool :=
  let capped : ℤ × Bool := if count > 50 then (50, true) else (count, false)
  ({ user_id := user_id, count := capped.1,
     max_id := match max_id with
               | some s => if s ≠ "" then some s else none
               | none => none },
   capped.2)

/-- The identical `count`-capping prologue of `fetch_user_reels`
(fetcher.py lines 435-448). -/
def fetch_user_reels_request (user_id : String) (count : ℤ)
    (max_id : Option String) : TikhubParams × Bool :=
  let capped : ℤ × Bool := if count > 50 then (50, true) else (count, false)
  ({ user_id := user_id, count := capped.1,
     max_id := match max_id with
               | some s => if s ≠ "" then some s else none
               | none => none },
   capped.2)

/-- What the environment does on one HTTP attempt: a response with a
status code, or a network-level `RequestException`. -/
inductive HttpOutcome where
  | resp (status : ℕ)
  | netErr
deriving DecidableEq, Repr

/-- How `_http_get` ends: a response returned to the caller (from which
attempt, with which status), the last network exception re-raised, or the
defensive `RuntimeError` of the dead post-loop path. -/
inductive HttpResult where
  | returned (attempt status : ℕ)
  | raisedNet (attempt : ℕ)
  | raisedRuntime
deriving DecidableEq, Repr

/-- The observable behaviour of one `_http_get` call: its result, the
sequence of backoff sleeps performed (seconds), and how many attempts
were made. -/
structure HttpTrace where
  result : HttpResult
  sleeps : List ℕ
  attempts : ℕ
deriving DecidableEq, Repr

/-- `r.status_code == 429 or (500 <= r.status_code < 600)` (fetcher.py
line 318). -/
def retryableStatus (s : ℕ) : Bool := s == 429 || (500 ≤ s && s < 600)

/-- An attempt outcome on which the loop retries. -/
def retryableOutcome : HttpOutcome → Bool
  | .resp s => retryableStatus s
  | .netErr => true

/-- The `for attempt in range(1, max_retries + 1)` loop of `_http_get`
(fetcher.py lines 313-331), entered at `attempt` with the current
`backoff`.  The loop enters with `attempt = 1`, so the code's
`attempt == max_retries` last-attempt test is reached exactly when
`max_retries ≤ attempt`. -/
def http_get_loop (outcomes : ℕ → HttpOutcome) (max_retries : ℕ) :
    (attempt backoff : ℕ) → HttpTrace
  | attempt, backoff =>
    match outcomes attempt with
    | .resp s =>
      if retryableStatus s then
        if max_retries ≤ attempt then ⟨.returned attempt s, [], attempt⟩
        else
          let t := http_get_loop outcomes max_retries (attempt + 1) (backoff * 2)
          ⟨t.result, backoff :: t.sleeps, t.attempts⟩
      else ⟨.returned attempt s, [], attempt⟩
    | .netErr =>
      if max_retries ≤ attempt then ⟨.raisedNet attempt, [], attempt⟩
      else
        let t := http_get_loop outcomes max_retries (attempt + 1) (backoff * 2)
        ⟨t.result, backoff :: t.sleeps, t.attempts⟩
termination_by attempt _ => max_retries + 1 - attempt
decreasing_by all_goals omega

/-- `_http_get` (fetcher.py lines 303-335) with the environment's
per-attempt outcomes made explicit; `backoff` starts at 1 and the loop
starts at attempt 1.  With `max_retries = 0` the loop body never runs and
the trailing `RuntimeError` is raised. -/
def http_get (outcomes : ℕ → HttpOutcome) (max_retries : ℕ := 3) : HttpTrace :=
  if max_retries = 0 then ⟨.raisedRuntime, [], 0⟩
  else http_get_loop outcomes max_retries 1 1

/-- One entry of the `posts_pages` / `reels_pages` result list of
`fetch_and_store_paged` (fetcher.py lines 644, 649): the 1-based page
number, the cursor resolved from that page, and the optional
cycle-termination note. -/
structure PageResult where
  page : ℕ
  next_cursor : Option JVal
  note : Option String
deriving DecidableEq, Repr

/-- The `for p in range(post_pages)` pagination loop of
`fetch_and_store_paged` (fetcher.py lines 600-671; the reels loop, lines
673-735, is identical), on its successful-response path with
`store_local_first = False` and `local_file_limit = None`.  `responses p`
is the payload of the `p`-th request of this session (requests are
strictly sequential, so the page index determines the request).  Each
iteration appends one result entry; a cursor already in `seen_cursors`
stops the loop after tagging that entry, an absent cursor stops the
loop, and otherwise the cursor is recorded and becomes `max_id`. -/
def fetch_pages_loop (responses : ℕ → JVal) (pages : ℕ) :
    (p : ℕ) → (seen : List JVal) → List PageResult
  | p, seen =>
    if _h : pages ≤ p then []
    else
      let data := responses p
      match resolveCursor data with
      | some c =>
        if seen.contains c then [⟨p + 1, some c, some "repeated_cursor_stopped"⟩]
        else ⟨p + 1, some c, none⟩ :: fetch_pages_loop responses pages (p + 1) (c :: seen)
      | none => [⟨p + 1, none, none⟩]
termination_by p _ => pages - p
decreasing_by omega

/-- The posts-pagination pass of `fetch_and_store_paged`: the loop entered
with `max_id = None` and `seen_cursors = set()` (fetcher.py lines
600-603). -/
def fetch_pages (responses : ℕ → JVal) (pages : ℕ) : List PageResult :=
  fetch_pages_loop responses pages 0 []

/-! ## Helper lemmas -/

theorem dotProduct_nil_left (v : List ℝ) : dotProduct [] v = 0 := by
  simp [dotProduct]

theorem dotProduct_nil_right (v : List ℝ) : dotProduct v [] = 0 := by
  cases v <;> simp [dotProduct]

theorem dotProduct_cons (a b : ℝ) (v1 v2 : List ℝ) :
    dotProduct (a :: v1) (b :: v2) = a * b + dotProduct v1 v2 := by
  simp [dotProduct]

theorem dotProduct_comm (v1 v2 : List ℝ) : dotProduct v1 v2 = dotProduct v2 v1 := by
  induction v1 generalizing v2 with
  | nil => simp [dotProduct_nil_left, dotProduct_nil_right]
  | cons a v1 ih =>
    cases v2 with
    | nil => simp [dotProduct_nil_left, dotProduct_nil_right]
    | cons b v2 => rw [dotProduct_cons, dotProduct_cons, mul_comm, ih]

theorem cosine_similarity_comm (v1 v2 : List ℝ) :
    cosine_similarity v1 v2 = cosine_similarity v2 v1 := by
  unfold cosine_similarity
  rcases eq_or_ne v1.length v2.length with hl | hl
  · simp only [hl, ne_eq, not_true_eq_false, if_false]
    by_cases hm : magnitude v2 = 0 ∨ magnitude v1 = 0
    · rw [if_pos (or_comm.mp hm), if_pos hm]
    · rw [if_neg (fun hc => hm (or_comm.mp hc)), if_neg hm,
        dotProduct_comm, mul_comm]
  · simp [hl, hl.symm]

/-- C4: `cosine_similarity` returns 0 when the lengths differ or either
magnitude is 0, and otherwise the dot product divided by the product of
the magnitudes, whose divisor is then nonzero (so the division is never
by zero); the function is total (never raises). -/
theorem C4_cosine_similarity_guards (vec1 vec2 : List ℝ) :
    (vec1.length ≠ vec2.length → cosine_similarity vec1 vec2 = 0) ∧
    (magnitude vec1 = 0 ∨ magnitude vec2 = 0 → cosine_similarity vec1 vec2 = 0) ∧
    (vec1.length = vec2.length → magnitude vec1 ≠ 0 → magnitude vec2 ≠ 0 →
      cosine_similarity vec1 vec2
          = dotProduct vec1 vec2 / (magnitude vec1 * magnitude vec2) ∧
        magnitude vec1 * magnitude vec2 ≠ 0) := by
  refine ⟨fun h => by simp [cosine_similarity, h], fun h => ?_, fun hl h1 h2 => ?_⟩
  · rcases eq_or_ne vec1.length vec2.length with hl | hl
    · simp [cosine_similarity, hl, h]
    · simp [cosine_similarity, hl]
  · constructor
    · simp [cosine_similarity, hl, h1, h2]
    · exact mul_ne_zero h1 h2

theorem magnitude_single_unit : magnitude ([1, 0] : List ℝ) = 1 := by
  simp [magnitude]

/-- Witness for C4 at the concrete pair `[1, 0]`, `[0, 1]`. -/
theorem C4_cosine_similarity_guards_witness :
    ([1, 0] : List ℝ).length = ([0, 1] : List ℝ).length ∧
    magnitude ([1, 0] : List ℝ) ≠ 0 ∧ magnitude ([0, 1] : List ℝ) ≠ 0 ∧
    (cosine_similarity [1, 0] [0, 1]
        = dotProduct [1, 0] [0, 1] / (magnitude [1, 0] * magnitude [0, 1]) ∧
      magnitude [1, 0] * magnitude [0, 1] ≠ 0) := by
  have h1 : magnitude ([1, 0] : List ℝ) ≠ 0 := by
    rw [magnitude_single_unit]; norm_num
  have h2 : magnitude ([0, 1] : List ℝ) ≠ 0 := by
    have : magnitude ([0, 1] : List ℝ) = 1 := by simp [magnitude]
    rw [this]; norm_num
  exact ⟨rfl, h1, h2, (C4_cosine_similarity_guards [1, 0] [0, 1]).2.2 rfl h1 h2⟩

/-- C5: cosine similarity is symmetric in its two vector arguments. -/
theorem C5_cosine_similarity_symm (a b : List ℝ) :
    cosine_similarity a b = cosine_similarity b a :=
  cosine_similarity_comm a b

/-- C6: a requested page size above the upstream maximum of 50 is sent as
`count = 50` with the warning emitted (and no exception: the embedded
request construction is total); a page size of at most 50 is passed
through unchanged, with no warning.  Both `fetch_user_posts` and
`fetch_user_reels` behave this way. -/
theorem C6_page_size_capping (user_id : String) (count : ℤ)
    (max_id : Option String) :
    (count > 50 →
      (fetch_user_posts_request user_id count max_id).1.count = 50 ∧
      (fetch_user_posts_request user_id count max_id).2 = true ∧
      (fetch_user_reels_request user_id count max_id).1.count = 50 ∧
      (fetch_user_reels_request user_id count max_id).2 = true) ∧
    (count ≤ 50 →
      (fetch_user_posts_request user_id count max_id).1.count = count ∧
      (fetch_user_posts_request user_id count max_id).2 = false ∧
      (fetch_user_reels_request user_id count max_id).1.count = count ∧
      (fetch_user_reels_request user_id count max_id).2 = false) := by
  constructor
  · intro h
    simp [fetch_user_posts_request, fetch_user_reels_request, h]
  · intro h
    have h' : ¬ count > 50 := by omega
    simp [fetch_user_posts_request, fetch_user_reels_request, h']

/-- Witness for C6 at the spec's own example: requested page size 500 is
sent as 50 with a warning and, at 12, passed through unwarned. -/
theorem C6_page_size_capping_witness :
    ((500 : ℤ) > 50 ∧
      (fetch_user_posts_request "u" 500 none).1.count = 50 ∧
      (fetch_user_posts_request "u" 500 none).2 = true ∧
      (fetch_user_reels_request "u" 500 none).1.count = 50 ∧
      (fetch_user_reels_request "u" 500 none).2 = true) ∧
    ((12 : ℤ) ≤ 50 ∧
      (fetch_user_posts_request "u" 12 none).1.count = 12 ∧
      (fetch_user_posts_request "u" 12 none).2 = false ∧
      (fetch_user_reels_request "u" 12 none).1.count = 12 ∧
      (fetch_user_reels_request "u" 12 none).2 = false) :=
  ⟨⟨by decide, (C6_page_size_capping "u" 500 none).1 (by decide)⟩,
   ⟨by decide, (C6_page_size_capping "u" 12 none).2 (by decide)⟩⟩

/-- C1 as stated is false on the code: `normalize_snapshot` stamps
`created_at = datetime.utcnow()` into every snapshot (adapter.py line
197), so two calls on the same identity and record list, performed at
different instants, produce documents that are not deeply equal. -/
theorem C1_counterexample :
    normalize_snapshot "alice" [] 0 ≠ normalize_snapshot "alice" [] 1 := by
  decide

/-- C1 (amended): apart from the `created_at` regeneration timestamp,
normalization is a pure, deterministic function of the identity and the
raw-record list — two runs at arbitrary instants agree on every other
field (deep equality after erasing the timestamp). -/
theorem C1_amended_normalize_deterministic (username : String)
    (records : List JVal) (t1 t2 : ℚ) :
    (normalize_snapshot username records t1).map stripTime
      = (normalize_snapshot username records t2).map stripTime := by
  unfold normalize_snapshot
  cases records.foldlM stepRecord ([], []) with
  | none => rfl
  | some st => simp [stripTime]

theorem dictGet_map_keyFix (d : List (String × JVal)) (k k' : String)
    (v : JVal) (h : k' ≠ k) :
    dictGet (d.map (fun p => if p.1 = k' then (p.1, v) else p)) k
      = dictGet d k := by
  induction d with
  | nil => rfl
  | cons p d ih =>
    rw [List.map_cons]
    by_cases hp : p.1 = k
    · have hp' : ¬ p.1 = k' := fun hk' => h (by rw [← hk', hp])
      rw [if_neg hp']
      unfold dictGet
      rw [List.find?_cons_of_pos _ (by simpa using hp),
        List.find?_cons_of_pos _ (by simpa using hp)]
    · unfold dictGet at ih ⊢
      by_cases hp' : p.1 = k'
      · rw [if_pos hp']
        rw [List.find?_cons_of_neg _ (by simpa using hp),
          List.find?_cons_of_neg _ (by simpa using hp)]
        exact ih
      · rw [if_neg hp']
        rw [List.find?_cons_of_neg _ (by simpa using hp),
          List.find?_cons_of_neg _ (by simpa using hp)]
        exact ih

theorem dictGet_dictSet_ne (d : List (String × JVal)) (k k' : String)
    (v : JVal) (h : k' ≠ k) : dictGet (dictSet d k' v) k = dictGet d k := by
  unfold dictSet
  split
  · exact dictGet_map_keyFix d k k' v h
  · unfold dictGet
    rw [List.find?_append]
    cases hf : d.find? (fun p => p.1 = k) with
    | some p => simp [Option.or]
    | none => simp [Option.or, List.find?, h]

theorem dictGet_dictUpdate_missing (src : List (String × JVal))
    (d : List (String × JVal)) (k : String) (h : dictGet src k = none) :
    dictGet (dictUpdate d src) k = dictGet d k := by
  induction src generalizing d with
  | nil => rfl
  | cons p src ih =>
    have hk : ¬ (p.1 = k) := by
      intro hp
      simp [dictGet, List.find?, hp] at h
    have hrest : dictGet src k = none := by
      simpa [dictGet, List.find?, hk] using h
    show dictGet (dictUpdate (dictSet d p.1 p.2) src) k = dictGet d k
    rw [ih _ hrest, dictGet_dictSet_ne _ _ _ _ hk]

theorem dictGet_dictSetdefault_preserved (d : List (String × JVal))
    (k k' : String) (v w : JVal) (h : dictGet d k = some v) :
    dictGet (dictSetdefault d k' w) k = some v := by
  unfold dictSetdefault
  split
  · exact h
  · unfold dictGet at h ⊢
    rw [List.find?_append]
    cases hf : d.find? (fun p => p.1 = k) with
    | none => rw [hf] at h; simp at h
    | some p => rw [hf] at h; simpa [Option.or] using h

theorem dictGet_foldl_preserved {α : Type} (l : List α)
    (step : List (String × JVal) → α → List (String × JVal))
    (hstep : ∀ ui a k v, dictGet ui k = some v → dictGet (step ui a) k = some v)
    (ui : List (String × JVal)) (k : String) (v : JVal)
    (h : dictGet ui k = some v) : dictGet (l.foldl step ui) k = some v := by
  induction l generalizing ui with
  | nil => exact h
  | cons a l ih => exact ih _ (hstep _ _ _ _ h)

/-- The merge of one user-like record never changes an already-populated
identity-info key, provided the record's nested `user` dict (the one
`dict.update` source) does not bind that key. -/
theorem mergeUserInfo_preserves (user_info rawkvs : List (String × JVal))
    (k : String) (v : JVal) (hv : dictGet user_info k = some v)
    (huser : ∀ ukvs, dictGet rawkvs "user" = some (.obj ukvs) →
      dictGet ukvs k = none) :
    dictGet (mergeUserInfo user_info rawkvs) k = some v := by
  unfold mergeUserInfo
  have h1 : dictGet (match dictGet rawkvs "user" with
      | some (.obj ukvs) => dictUpdate user_info ukvs
      | _ => user_info) k = some v := by
    cases hu : dictGet rawkvs "user" with
    | none => exact hv
    | some u =>
      cases u with
      | obj ukvs =>
        rw [dictGet_dictUpdate_missing _ _ _ (huser ukvs hu)]
        exact hv
      | null => exact hv
      | bool b => exact hv
      | num q => exact hv
      | str s => exact hv
      | arr xs => exact hv
  have h2 : ∀ ui₀, dictGet ui₀ k = some v →
      dictGet (userInfoFields.foldl
        (fun ui k' =>
          match dictGet rawkvs k' with
          | some w => if w.truthy then dictSetdefault ui k' w else ui
          | none => ui) ui₀) k = some v := by
    intro ui₀ h₀
    refine dictGet_foldl_preserved _ _ ?_ _ _ _ h₀
    intro ui a k₁ v₁ hv₁
    cases dictGet rawkvs a with
    | none => exact hv₁
    | some w =>
      by_cases hw : w.truthy
      · simp only [hw, if_true]
        exact dictGet_dictSetdefault_preserved _ _ _ _ _ hv₁
      · simp only [hw, if_false]
        exact hv₁
  cases hd : dictGet rawkvs "data" with
  | none => exact h2 _ h1
  | some dv =>
    cases dv with
    | obj dkvs =>
      refine dictGet_foldl_preserved _ _ ?_ _ _ _ (h2 _ h1)
      intro ui a k₁ v₁ hv₁
      cases dictGet dkvs a with
      | none => exact hv₁
      | some w => exact dictGet_dictSetdefault_preserved _ _ _ _ _ hv₁
    | null => exact h2 _ h1
    | bool b => exact h2 _ h1
    | num q => exact h2 _ h1
    | str s => exact h2 _ h1
    | arr xs => exact h2 _ h1

theorem stepRecord_shape (ui : List (String × JVal)) (posts : List JVal)
    (rec : JVal) (st' : List (String × JVal) × List JVal)
    (h : stepRecord (ui, posts) rec = some st') :
    st'.1 = ui ∨ ∃ rkvs rawkvs, rec = .obj rkvs ∧
      orTruthy (pyGet rkvs "raw") (.obj []) = .obj rawkvs ∧
      st'.1 = mergeUserInfo ui rawkvs := by
  cases rec with
  | obj rkvs =>
    simp only [stepRecord] at h
    split at h
    · exact absurd h (by simp)
    · split at h
      · exact absurd h (by simp)
      · split at h
        · exact absurd h (by simp)
        · split at h
          · exact absurd h (by simp)
          · rename_i hmerged _ _ hex
            split at hmerged
            · split at hmerged
              · rename_i hraw
                right
                cases h
                cases hmerged
                exact ⟨rkvs, _, rfl, hraw, rfl⟩
              · exact absurd hmerged (by simp)
            · left
              cases h
              cases hmerged
              rfl
  | null => exact absurd h (by simp [stepRecord])
  | bool b => exact absurd h (by simp [stepRecord])
  | num q => exact absurd h (by simp [stepRecord])
  | str s => exact absurd h (by simp [stepRecord])
  | arr xs => exact absurd h (by simp [stepRecord])

/-- C2 fails as stated: the merge path taken for a record's nested
`raw['user']` dict is `user_info.update(...)` (adapter.py line 172),
which overwrites.  With two user-info records whose `user` dicts both
bind `bio`, the first record populates `bio = "a"` and the second record
changes it to `"b"`. -/
theorem C2_counterexample :
    ((normalize_snapshot "u"
        [.obj [("raw", .obj [("user", .obj [("bio", .str "a")])])]] 0).map
      (fun s => dictGet s.user_info "bio") = some (some (.str "a"))) ∧
    ((normalize_snapshot "u"
        [.obj [("raw", .obj [("user", .obj [("bio", .str "a")])])],
         .obj [("raw", .obj [("user", .obj [("bio", .str "b")])])]] 0).map
      (fun s => dictGet s.user_info "bio") = some (some (.str "b"))) := by
  constructor
  · rfl
  · rfl

/-- C2 (amended): the merge is first-write-wins for every field except
those assigned from a record's nested `raw['user']` dict (which go
through `dict.update` and overwrite): processing one more record never
changes an already-populated identity-info key as long as that record's
nested `user` dict (if the record has one) does not bind the key. -/
theorem C2_amended_first_write_wins (user_info : List (String × JVal))
    (posts : List JVal) (rec : JVal) (k : String) (v : JVal)
    (st' : List (String × JVal) × List JVal)
    (hv : dictGet user_info k = some v)
    (hstep : stepRecord (user_info, posts) rec = some st')
    (huser : ∀ ukvs, userDictOf rec = some ukvs → dictGet ukvs k = none) :
    dictGet st'.1 k = some v := by
  rcases stepRecord_shape user_info posts rec st' hstep with h | ⟨rkvs, rawkvs, hrec, hraw, h⟩
  · rw [h]; exact hv
  · rw [h]
    refine mergeUserInfo_preserves _ _ _ _ hv ?_
    intro ukvs hu
    refine huser ukvs ?_
    rw [hrec]
    simp [userDictOf, hraw, hu]

/-- Witness for the amended C2: a second record whose `user` dict binds
only `followers` leaves the already-populated `bio` untouched. -/
theorem C2_amended_first_write_wins_witness :
    (dictGet [("bio", JVal.str "a")] "bio" = some (.str "a") ∧
      stepRecord ([("bio", JVal.str "a")], [])
          (.obj [("raw", .obj [("user", .obj [("followers", .num 5)])])])
        = some ([("bio", JVal.str "a"), ("followers", JVal.num 5)], []) ∧
      (∀ ukvs,
        userDictOf (.obj [("raw", .obj [("user", .obj [("followers", .num 5)])])])
          = some ukvs → dictGet ukvs "bio" = none)) ∧
    dictGet ([("bio", JVal.str "a"), ("followers", JVal.num 5)] :
        List (String × JVal)) "bio" = some (.str "a") := by
  refine ⟨⟨by decide, by decide, ?_⟩, ?_⟩
  · intro ukvs hu
    have : ukvs = [("followers", JVal.num 5)] := by
      have h0 : userDictOf (.obj [("raw", .obj [("user", .obj [("followers", .num 5)])])])
          = some [("followers", JVal.num 5)] := by decide
      rw [h0] at hu
      exact (Option.some_inj.mp hu).symm
    rw [this]
    decide
  · exact C2_amended_first_write_wins [("bio", JVal.str "a")] []
      (.obj [("raw", .obj [("user", .obj [("followers", .num 5)])])])
      "bio" (.str "a") ([("bio", JVal.str "a"), ("followers", JVal.num 5)], [])
      (by decide) (by decide)
      (by
        intro ukvs hu
        have h0 : userDictOf (.obj [("raw", .obj [("user", .obj [("followers", .num 5)])])])
            = some [("followers", JVal.num 5)] := by decide
        rw [h0] at hu
        rw [(Option.some_inj.mp hu).symm]
        decide)

/-- C10: every snapshot `normalize_snapshot` produces satisfies
`total_posts = len(posts)` (adapter.py line 196), and its identity-info
map is never empty: when the record loop contributed nothing it is
exactly the singleton `{'username': identity}` (adapter.py lines
188-189). -/
theorem C10_snapshot_invariants (username : String) (records : List JVal)
    (now : ℚ) (snap : Snapshot)
    (h : normalize_snapshot username records now = some snap) :
    snap.total_posts = snap.posts.length ∧
    snap.user_info ≠ [] ∧
    (∀ st, records.foldlM stepRecord ([], []) = some st → st.1 = [] →
      snap.user_info = [("username", JVal.str username)]) := by
  unfold normalize_snapshot at h
  cases hf : records.foldlM stepRecord ([], []) with
  | none => rw [hf] at h; exact absurd h (by simp)
  | some st =>
    rw [hf] at h
    obtain ⟨ui, posts⟩ := st
    simp only [Option.pure_def, Option.bind_eq_bind, Option.some_bind,
      Option.some_inj] at h
    subst h
    refine ⟨rfl, ?_, ?_⟩
    · by_cases hui : ui = [] <;> simp [hui]
    · intro st hst hempty
      cases hst
      simp only at hempty
      simp [hempty]

/-- Witness for C10 at the empty record list: the snapshot has
`total_posts = 0 = len(posts)` and the fallback singleton info map. -/
theorem C10_snapshot_invariants_witness :
    (normalize_snapshot "u" [] 0
      = some ⟨"instagram", "u", [("username", JVal.str "u")], [], 0, 0, 0⟩) ∧
    ((⟨"instagram", "u", [("username", JVal.str "u")], [], 0, 0, 0⟩ : Snapshot).total_posts
        = (⟨"instagram", "u", [("username", JVal.str "u")], [], 0, 0, 0⟩ : Snapshot).posts.length ∧
      (⟨"instagram", "u", [("username", JVal.str "u")], [], 0, 0, 0⟩ : Snapshot).user_info ≠ [] ∧
      (∀ st, ([] : List JVal).foldlM stepRecord ([], []) = some st → st.1 = [] →
        (⟨"instagram", "u", [("username", JVal.str "u")], [], 0, 0, 0⟩ : Snapshot).user_info
          = [("username", JVal.str "u")])) :=
  ⟨by decide, C10_snapshot_invariants "u" [] 0 _ (by decide)⟩

theorem http_get_loop_resp (outcomes : ℕ → HttpOutcome) (m a b s : ℕ)
    (ho : outcomes a = .resp s) :
    http_get_loop outcomes m a b =
      if retryableStatus s = true then
        if m ≤ a then ⟨.returned a s, [], a⟩
        else
          ⟨(http_get_loop outcomes m (a + 1) (b * 2)).result,
           b :: (http_get_loop outcomes m (a + 1) (b * 2)).sleeps,
           (http_get_loop outcomes m (a + 1) (b * 2)).attempts⟩
      else ⟨.returned a s, [], a⟩ := by
  rw [http_get_loop, ho]

theorem http_get_loop_netErr (outcomes : ℕ → HttpOutcome) (m a b : ℕ)
    (ho : outcomes a = .netErr) :
    http_get_loop outcomes m a b =
      if m ≤ a then ⟨.raisedNet a, [], a⟩
      else
        ⟨(http_get_loop outcomes m (a + 1) (b * 2)).result,
         b :: (http_get_loop outcomes m (a + 1) (b * 2)).sleeps,
         (http_get_loop outcomes m (a + 1) (b * 2)).attempts⟩ := by
  rw [http_get_loop, ho]

/-- Behaviour of the `_http_get` retry loop entered at `attempt = a` with
backoff `b`: at most `m` attempts, sleeps `b, 2b, 4b, ...` (one per
non-final attempt), every retried attempt had a retryable outcome, and a
non-retryable response at the entry attempt is returned at once with no
sleep. -/
theorem http_get_loop_spec (outcomes : ℕ → HttpOutcome) (m : ℕ) :
    ∀ n a b, a ≤ m → m + 1 - a ≤ n →
    a ≤ (http_get_loop outcomes m a b).attempts ∧
    (http_get_loop outcomes m a b).attempts ≤ m ∧
    (http_get_loop outcomes m a b).sleeps
      = (List.range ((http_get_loop outcomes m a b).attempts - a)).map
          (fun i => b * 2 ^ i) ∧
    (∀ i, a ≤ i → i < (http_get_loop outcomes m a b).attempts →
      retryableOutcome (outcomes i) = true) ∧
    (∀ s, outcomes a = .resp s → retryableStatus s = false →
      http_get_loop outcomes m a b = ⟨.returned a s, [], a⟩) := by
  intro n
  induction n with
  | zero => intro a b ha hn; omega
  | succ n ih =>
    intro a b ha hn
    cases ho : outcomes a with
    | resp s =>
      rw [http_get_loop_resp outcomes m a b s ho]
      by_cases hr : retryableStatus s = true
      · rw [if_pos hr]
        by_cases hm : m ≤ a
        · rw [if_pos hm]
          refine ⟨le_refl a, ha, by simp,
            fun i h1 h2 => absurd (lt_of_le_of_lt h1 h2) (lt_irrefl a), ?_⟩
          intro s' hs' hrs'
          cases hs'
          rfl
        · rw [if_neg hm]
          have ha' : a + 1 ≤ m := by omega
          have hn' : m + 1 - (a + 1) ≤ n := by omega
          obtain ⟨i1, i2, i3, i4, _⟩ := ih (a + 1) (b * 2) ha' hn'
          refine ⟨by simp only; omega, by simpa using i2, ?_, ?_, ?_⟩
          · simp only
            rw [i3]
            have hsub : (http_get_loop outcomes m (a + 1) (b * 2)).attempts - a
                = ((http_get_loop outcomes m (a + 1) (b * 2)).attempts - (a + 1)) + 1 := by
              omega
            rw [hsub, List.range_succ_eq_map, List.map_cons, List.map_map]
            congr 1
            · simp
            · apply List.map_congr_left
              intro i _
              simp only [Function.comp_apply]
              rw [pow_succ]
              ring
          · intro i h1 h2
            simp only at h2
            rcases eq_or_lt_of_le h1 with rfl | hlt
            · rw [ho]
              exact hr
            · exact i4 i hlt h2
          · intro s' hs' hrs'
            cases hs'
            rw [hr] at hrs'
            exact absurd hrs' (by simp)
      · rw [if_neg hr]
        refine ⟨le_refl a, ha, by simp,
          fun i h1 h2 => absurd (lt_of_le_of_lt h1 h2) (lt_irrefl a), ?_⟩
        intro s' hs' _
        cases hs'
        rfl
    | netErr =>
      rw [http_get_loop_netErr outcomes m a b ho]
      by_cases hm : m ≤ a
      · rw [if_pos hm]
        refine ⟨le_refl a, ha, by simp,
          fun i h1 h2 => absurd (lt_of_le_of_lt h1 h2) (lt_irrefl a), ?_⟩
        intro s' hs' _
        exact HttpOutcome.noConfusion hs'
      · rw [if_neg hm]
        have ha' : a + 1 ≤ m := by omega
        have hn' : m + 1 - (a + 1) ≤ n := by omega
        obtain ⟨i1, i2, i3, i4, _⟩ := ih (a + 1) (b * 2) ha' hn'
        refine ⟨by simp only; omega, by simpa using i2, ?_, ?_, ?_⟩
        · simp only
          rw [i3]
          have hsub : (http_get_loop outcomes m (a + 1) (b * 2)).attempts - a
              = ((http_get_loop outcomes m (a + 1) (b * 2)).attempts - (a + 1)) + 1 := by
            omega
          rw [hsub, List.range_succ_eq_map, List.map_cons, List.map_map]
          congr 1
          · simp
          · apply List.map_congr_left
            intro i _
            simp only [Function.comp_apply]
            rw [pow_succ]
            ring
        · intro i h1 h2
          simp only at h2
          rcases eq_or_lt_of_le h1 with rfl | hlt
          · rw [ho]
            rfl
          · exact i4 i hlt h2
        · intro s' hs' _
          exact HttpOutcome.noConfusion hs'

/-- C7: `_http_get` retries only on network errors, HTTP 429, or 5xx
(every retried attempt had such an outcome), sleeps exponentially
starting at 1 second and doubling (sleeps are exactly `1, 2, 4, ...`, one
per non-final attempt), makes at most `max_retries` attempts (default 3),
and returns any other response immediately on the first attempt with no
sleep. -/
theorem C7_http_get_retry_policy (outcomes : ℕ → HttpOutcome) (m : ℕ)
    (hm : 1 ≤ m) :
    http_get outcomes = http_get outcomes 3 ∧
    (http_get outcomes m).attempts ≤ m ∧
    (http_get outcomes m).sleeps
      = (List.range ((http_get outcomes m).attempts - 1)).map (fun i => 2 ^ i) ∧
    (∀ i, 1 ≤ i → i < (http_get outcomes m).attempts →
      retryableOutcome (outcomes i) = true) ∧
    (∀ s, outcomes 1 = .resp s → retryableStatus s = false →
      http_get outcomes m = ⟨.returned 1 s, [], 1⟩) := by
  have hm0 : m ≠ 0 := by omega
  have hu : http_get outcomes m = http_get_loop outcomes m 1 1 := by
    unfold http_get
    rw [if_neg hm0]
  obtain ⟨i1, i2, i3, i4, i5⟩ :=
    http_get_loop_spec outcomes m m 1 1 hm (by omega)
  refine ⟨rfl, ?_, ?_, ?_, ?_⟩
  · rw [hu]; exact i2
  · rw [hu, i3]
    simp
  · rw [hu]; exact i4
  · intro s h1 h2
    rw [hu]
    exact i5 s h1 h2

/-- Witness for C7: every attempt answers 404 (non-retryable), so the
call returns it on attempt 1 with no sleeps. -/
theorem C7_http_get_retry_policy_witness :
    (1 : ℕ) ≤ 3 ∧
    (http_get (fun _ => .resp 404) = http_get (fun _ => .resp 404) 3 ∧
      (http_get (fun _ => .resp 404) 3).attempts ≤ 3 ∧
      (http_get (fun _ => .resp 404) 3).sleeps
        = (List.range ((http_get (fun _ => .resp 404) 3).attempts - 1)).map
            (fun i => 2 ^ i) ∧
      (∀ i, 1 ≤ i → i < (http_get (fun _ => .resp 404) 3).attempts →
        retryableOutcome ((fun _ => HttpOutcome.resp 404) i) = true) ∧
      (∀ s, (fun _ => HttpOutcome.resp 404) 1 = HttpOutcome.resp s →
        retryableStatus s = false →
        http_get (fun _ => .resp 404) 3 = ⟨.returned 1 s, [], 1⟩)) :=
  ⟨by decide, C7_http_get_retry_policy (fun _ => .resp 404) 3 (by decide)⟩

theorem fetch_pages_loop_stop (responses : ℕ → JVal) (pages p : ℕ)
    (seen : List JVal) (h : pages ≤ p) :
    fetch_pages_loop responses pages p seen = [] := by
  rw [fetch_pages_loop, dif_pos h]

theorem fetch_pages_loop_go (responses : ℕ → JVal) (pages p : ℕ)
    (seen : List JVal) (h : ¬ pages ≤ p) :
    fetch_pages_loop responses pages p seen =
      match resolveCursor (responses p) with
      | some c =>
        if seen.contains c then [⟨p + 1, some c, some "repeated_cursor_stopped"⟩]
        else ⟨p + 1, some c, none⟩ :: fetch_pages_loop responses pages (p + 1) (c :: seen)
      | none => [⟨p + 1, none, none⟩] := by
  rw [fetch_pages_loop, dif_neg h]

theorem fetch_pages_loop_none (responses : ℕ → JVal) (pages p : ℕ)
    (seen : List JVal) (h : ¬ pages ≤ p)
    (hc : resolveCursor (responses p) = none) :
    fetch_pages_loop responses pages p seen = [⟨p + 1, none, none⟩] := by
  rw [fetch_pages_loop_go responses pages p seen h, hc]

theorem fetch_pages_loop_repeat (responses : ℕ → JVal) (pages p : ℕ)
    (seen : List JVal) (c : JVal) (h : ¬ pages ≤ p)
    (hc : resolveCursor (responses p) = some c)
    (hs : seen.contains c = true) :
    fetch_pages_loop responses pages p seen
      = [⟨p + 1, some c, some "repeated_cursor_stopped"⟩] := by
  rw [fetch_pages_loop_go responses pages p seen h, hc]
  have hm : c ∈ seen := by simpa using hs
  simp [hm]

theorem fetch_pages_loop_cons (responses : ℕ → JVal) (pages p : ℕ)
    (seen : List JVal) (c : JVal) (h : ¬ pages ≤ p)
    (hc : resolveCursor (responses p) = some c)
    (hs : seen.contains c = false) :
    fetch_pages_loop responses pages p seen
      = ⟨p + 1, some c, none⟩ :: fetch_pages_loop responses pages (p + 1) (c :: seen) := by
  rw [fetch_pages_loop_go responses pages p seen h, hc]
  have hm : c ∉ seen := by simpa using hs
  simp [hm]

/-- Behaviour of the pagination loop entered at page index `p` with the
cursor set `seen`: at most `pages - p` entries are produced; an entry
whose cursor was already in `seen` is the final entry and carries the
repeat-stop note; an entry with no cursor is final; and two entries
sharing a cursor force the later one to be final and noted. -/
theorem fetch_pages_loop_spec (responses : ℕ → JVal) (pages : ℕ) :
    ∀ n p seen, pages - p ≤ n →
    (fetch_pages_loop responses pages p seen).length ≤ pages - p ∧
    (∀ j (hj : j < (fetch_pages_loop responses pages p seen).length) c,
      c ∈ seen →
      ((fetch_pages_loop responses pages p seen).get ⟨j, hj⟩).next_cursor = some c →
      j + 1 = (fetch_pages_loop responses pages p seen).length ∧
      ((fetch_pages_loop responses pages p seen).get ⟨j, hj⟩).note
        = some "repeated_cursor_stopped") ∧
    (∀ j (hj : j < (fetch_pages_loop responses pages p seen).length),
      ((fetch_pages_loop responses pages p seen).get ⟨j, hj⟩).next_cursor = none →
      j + 1 = (fetch_pages_loop responses pages p seen).length) ∧
    (∀ i j (hi : i < (fetch_pages_loop responses pages p seen).length)
        (hj : j < (fetch_pages_loop responses pages p seen).length) c, i < j →
      ((fetch_pages_loop responses pages p seen).get ⟨i, hi⟩).next_cursor = some c →
      ((fetch_pages_loop responses pages p seen).get ⟨j, hj⟩).next_cursor = some c →
      j + 1 = (fetch_pages_loop responses pages p seen).length ∧
      ((fetch_pages_loop responses pages p seen).get ⟨j, hj⟩).note
        = some "repeated_cursor_stopped") := by
  intro n
  induction n with
  | zero =>
    intro p seen h
    have hp : pages ≤ p := by omega
    rw [fetch_pages_loop_stop responses pages p seen hp]
    refine ⟨by simp, ?_, ?_, ?_⟩
    · intro j hj
      exact absurd hj (by simp)
    · intro j hj
      exact absurd hj (by simp)
    · intro i j hi hj
      exact absurd hj (by simp)
  | succ n ih =>
    intro p seen h
    by_cases hp : pages ≤ p
    · rw [fetch_pages_loop_stop responses pages p seen hp]
      refine ⟨by simp, ?_, ?_, ?_⟩
      · intro j hj
        exact absurd hj (by simp)
      · intro j hj
        exact absurd hj (by simp)
      · intro i j hi hj
        exact absurd hj (by simp)
    · cases hc : resolveCursor (responses p) with
      | none =>
        rw [fetch_pages_loop_none responses pages p seen hp hc]
        refine ⟨by simp; omega, ?_, ?_, ?_⟩
        · intro j hj c _ hcur
          cases j with
          | zero => exact absurd hcur (by simp)
          | succ j => exact absurd hj (by simp)
        · intro j hj _
          cases j with
          | zero => rfl
          | succ j => exact absurd hj (by simp)
        · intro i j hi hj c hij _ _
          cases j with
          | zero => omega
          | succ j => exact absurd hj (by simp)
      | some c =>
        by_cases hseen : seen.contains c
        · rw [fetch_pages_loop_repeat responses pages p seen c hp hc hseen]
          refine ⟨by simp; omega, ?_, ?_, ?_⟩
          · intro j hj c' _ _
            cases j with
            | zero => exact ⟨rfl, rfl⟩
            | succ j => exact absurd hj (by simp)
          · intro j hj hcur
            cases j with
            | zero => exact absurd hcur (by simp)
            | succ j => exact absurd hj (by simp)
          · intro i j hi hj c' hij _ _
            cases j with
            | zero => omega
            | succ j => exact absurd hj (by simp)
        · have hsf : seen.contains c = false := by simpa using hseen
          rw [fetch_pages_loop_cons responses pages p seen c hp hc hsf]
          have hnot : c ∉ seen := by simpa using hseen
          have hn' : pages - (p + 1) ≤ n := by omega
          obtain ⟨l1, l2, l3, l4⟩ := ih (p + 1) (c :: seen) hn'
          have hlen : (PageResult.mk (p + 1) (some c) none ::
              fetch_pages_loop responses pages (p + 1) (c :: seen)).length
              = (fetch_pages_loop responses pages (p + 1) (c :: seen)).length + 1 := by
            simp
          refine ⟨?_, ?_, ?_, ?_⟩
          · rw [hlen]; omega
          · intro j hj c' hc' hcur
            cases j with
            | zero =>
              have : c' = c := by simpa using hcur.symm
              exact absurd (this ▸ hc') hnot
            | succ j =>
              have hj' : j < (fetch_pages_loop responses pages (p + 1) (c :: seen)).length := by
                simpa using hj
              obtain ⟨e1, e2⟩ := l2 j hj' c' (List.mem_cons_of_mem _ hc') hcur
              constructor
              · rw [hlen]; omega
              · exact e2
          · intro j hj hcur
            cases j with
            | zero => exact absurd hcur (by simp)
            | succ j =>
              have hj' : j < (fetch_pages_loop responses pages (p + 1) (c :: seen)).length := by
                simpa using hj
              have := l3 j hj' hcur
              rw [hlen]; omega
          · intro i j hi hj c' hij hci hcj
            cases i with
            | zero =>
              have hcc' : c' = c := by simpa using hci.symm
              cases j with
              | zero => omega
              | succ j =>
                have hj' : j < (fetch_pages_loop responses pages (p + 1) (c :: seen)).length := by
                  simpa using hj
                obtain ⟨e1, e2⟩ := l2 j hj' c' (hcc' ▸ List.mem_cons_self c seen) hcj
                constructor
                · rw [hlen]; omega
                · exact e2
            | succ i =>
              cases j with
              | zero => omega
              | succ j =>
                have hi' : i < (fetch_pages_loop responses pages (p + 1) (c :: seen)).length := by
                  simpa using hi
                have hj' : j < (fetch_pages_loop responses pages (p + 1) (c :: seen)).length := by
                  simpa using hj
                obtain ⟨e1, e2⟩ := l4 i j hi' hj' c' (by omega) hci hcj
                constructor
                · rw [hlen]; omega
                · exact e2

/-- C8: in the pagination loop of `fetch_and_store_paged`, at most the
requested number of pages is fetched; an entry whose resolved cursor
repeats any earlier entry's cursor is the final entry and is tagged
`'repeated_cursor_stopped'` (so when page 2 resolves the same cursor as
page 1, exactly two pages exist and a third is never requested); and an
entry with no resolved cursor is the final entry. -/
theorem C8_pagination_cycle_detection (responses : ℕ → JVal) (pages : ℕ) :
    (fetch_pages responses pages).length ≤ pages ∧
    (∀ i j (hi : i < (fetch_pages responses pages).length)
        (hj : j < (fetch_pages responses pages).length) c, i < j →
      ((fetch_pages responses pages).get ⟨i, hi⟩).next_cursor = some c →
      ((fetch_pages responses pages).get ⟨j, hj⟩).next_cursor = some c →
      j + 1 = (fetch_pages responses pages).length ∧
      ((fetch_pages responses pages).get ⟨j, hj⟩).note
        = some "repeated_cursor_stopped") ∧
    (∀ j (hj : j < (fetch_pages responses pages).length),
      ((fetch_pages responses pages).get ⟨j, hj⟩).next_cursor = none →
      j + 1 = (fetch_pages responses pages).length) ∧
    (∀ c, 3 ≤ pages → resolveCursor (responses 0) = some c →
      resolveCursor (responses 1) = some c →
      fetch_pages responses pages
        = [⟨1, some c, none⟩, ⟨2, some c, some "repeated_cursor_stopped"⟩]) := by
  unfold fetch_pages
  obtain ⟨l1, l2, l3, l4⟩ :=
    fetch_pages_loop_spec responses pages pages 0 [] (by omega)
  refine ⟨by simpa using l1, l4, l3, ?_⟩
  intro c h3 hc0 hc1
  rw [fetch_pages_loop_cons responses pages 0 [] c (by omega) hc0 (by simp),
    fetch_pages_loop_repeat responses pages 1 [c] c (by omega) hc1 (by simp)]

/-- Witness for C8: every page answers the same `next_max_id`, so with 3
requested pages the loop stops after page 2 with the repeat-stop note. -/
theorem C8_pagination_cycle_detection_witness :
    (3 : ℕ) ≤ 3 ∧
    resolveCursor ((fun _ => JVal.obj [("next_max_id", JVal.str "CUR")]) 0)
      = some (.str "CUR") ∧
    resolveCursor ((fun _ => JVal.obj [("next_max_id", JVal.str "CUR")]) 1)
      = some (.str "CUR") ∧
    fetch_pages (fun _ => JVal.obj [("next_max_id", JVal.str "CUR")]) 3
      = [⟨1, some (.str "CUR"), none⟩,
         ⟨2, some (.str "CUR"), some "repeated_cursor_stopped"⟩] :=
  ⟨by decide, by decide, by decide,
    (C8_pagination_cycle_detection
        (fun _ => JVal.obj [("next_max_id", JVal.str "CUR")]) 3).2.2.2
      (.str "CUR") (by decide) (by decide) (by decide)⟩

theorem edgeCandidate_eq (em : List (String × List ℝ)) (id1 id2 : String)
    (v1 v2 : List ℝ) (h1 : lookupEmb em id1 = some v1)
    (h2 : lookupEmb em id2 = some v2) :
    edgeCandidate em id1 id2 =
      if SIMILARITY_THRESHOLD ≤ cosine_similarity v1 v2 then
        [{ source := id1, target := id2,
           weight := round3 (cosine_similarity v1 v2),
           types_style := round3 (cosine_similarity v1 v2) }]
      else [] := by
  unfold edgeCandidate
  rw [h1, h2]

theorem mem_edgeCandidate (em : List (String × List ℝ)) (id1 id2 : String)
    (e : Edge) (h : e ∈ edgeCandidate em id1 id2) :
    ∃ v1 v2, lookupEmb em id1 = some v1 ∧ lookupEmb em id2 = some v2 ∧
      SIMILARITY_THRESHOLD ≤ cosine_similarity v1 v2 ∧
      e = { source := id1, target := id2,
            weight := round3 (cosine_similarity v1 v2),
            types_style := round3 (cosine_similarity v1 v2) } := by
  unfold edgeCandidate at h
  split at h
  · rename_i v1 v2 heq1 heq2
    dsimp only at h
    split at h
    · rename_i hthr
      simp only [List.mem_singleton] at h
      exact ⟨v1, v2, heq1, heq2, hthr, h⟩
    · exact absurd h (List.not_mem_nil e)
  · exact absurd h (List.not_mem_nil e)

theorem mem_build_network_edges (em : List (String × List ℝ)) :
    ∀ (creators : List Creator) (e : Edge),
    e ∈ build_network_edges creators em ↔
      ∃ c1 c2 : Creator, List.Sublist [c1, c2] creators ∧
        e ∈ edgeCandidate em c1.id c2.id := by
  intro creators
  induction creators with
  | nil =>
    intro e
    simp [build_network_edges]
  | cons c cs ih =>
    intro e
    simp only [build_network_edges, List.mem_append, List.mem_flatten,
      List.mem_map]
    constructor
    · rintro (⟨l, ⟨c2, hc2, rfl⟩, he⟩ | hrec)
      · exact ⟨c, c2,
          List.cons_sublist_cons.mpr (List.singleton_sublist.mpr hc2), he⟩
      · obtain ⟨c1, c2, hsub, he⟩ := (ih e).mp hrec
        exact ⟨c1, c2, hsub.cons c, he⟩
    · rintro ⟨c1, c2, hsub, he⟩
      rcases List.sublist_cons_iff.mp hsub with hsub' | ⟨r, hr, hrs⟩
      · exact Or.inr ((ih e).mpr ⟨c1, c2, hsub', he⟩)
      · cases hr
        exact Or.inl ⟨_, ⟨c2, List.singleton_sublist.mp hrs, rfl⟩, he⟩

theorem build_endpoints (em : List (String × List ℝ))
    (creators : List Creator) (e : Edge)
    (h : e ∈ build_network_edges creators em) :
    e.source ∈ creators.map (·.id) ∧ e.target ∈ creators.map (·.id) := by
  obtain ⟨c1, c2, hsub, he⟩ := (mem_build_network_edges em creators e).mp h
  obtain ⟨v1, v2, _, _, _, rfl⟩ := mem_edgeCandidate em c1.id c2.id e he
  have h1 : c1 ∈ creators := hsub.subset (by simp)
  have h2 : c2 ∈ creators := hsub.subset (by simp)
  exact ⟨List.mem_map_of_mem _ h1, List.mem_map_of_mem _ h2⟩

theorem edgeCandidate_sym2_eq (em : List (String × List ℝ)) (id1 id2 : String)
    (e : Edge) (h : e ∈ edgeCandidate em id1 id2) :
    s(e.source, e.target) = s(id1, id2) := by
  obtain ⟨v1, v2, _, _, _, rfl⟩ := mem_edgeCandidate em id1 id2 e h
  rfl

theorem edgeCandidate_nodup_map (em : List (String × List ℝ))
    (id1 id2 : String) (f : Edge → Sym2 String) :
    ((edgeCandidate em id1 id2).map f).Nodup := by
  unfold edgeCandidate
  split
  · dsimp only
    split
    · simp
    · simp
  · simp

theorem mem_inner_flatten (em : List (String × List ℝ)) (x : String)
    (cs : List Creator) (e : Edge) :
    e ∈ (cs.map (fun c2 => edgeCandidate em x c2.id)).flatten ↔
      ∃ c2 ∈ cs, e ∈ edgeCandidate em x c2.id := by
  simp [List.mem_flatten]

theorem inner_sym2_nodup (em : List (String × List ℝ)) (x : String) :
    ∀ cs : List Creator, x ∉ cs.map (·.id) → (cs.map (·.id)).Nodup →
    (((cs.map (fun c2 => edgeCandidate em x c2.id)).flatten).map
      (fun e => s(e.source, e.target))).Nodup := by
  intro cs
  induction cs with
  | nil =>
    intro _ _
    simp
  | cons c2 cs ih =>
    intro hx hnd
    rw [List.map_cons, List.nodup_cons] at hnd
    simp only [List.map_cons, List.mem_cons, not_or] at hx
    rw [List.map_cons, List.flatten_cons, List.map_append, List.nodup_append]
    refine ⟨edgeCandidate_nodup_map em x c2.id _, ih hx.2 hnd.2, ?_⟩
    intro pr hpr hpr'
    rw [List.mem_map] at hpr hpr'
    obtain ⟨e, he, rfl⟩ := hpr
    obtain ⟨e', he', hpe⟩ := hpr'
    have h1 := edgeCandidate_sym2_eq em x c2.id e he
    rw [mem_inner_flatten] at he'
    obtain ⟨c2', hc2', he'c⟩ := he'
    have h2 := edgeCandidate_sym2_eq em x c2'.id e' he'c
    have hp : s(x, c2.id) = s(x, c2'.id) :=
      h1.symm.trans (hpe.symm.trans h2)
    rcases Sym2.eq_iff.mp hp with ⟨_, hb⟩ | ⟨ha, _⟩
    · exact hnd.1 (hb ▸ List.mem_map_of_mem _ hc2')
    · exact hx.2 (ha ▸ List.mem_map_of_mem _ hc2')

theorem build_network_edges_sym2_nodup (em : List (String × List ℝ)) :
    ∀ creators : List Creator, (creators.map (·.id)).Nodup →
    ((build_network_edges creators em).map
      (fun e => s(e.source, e.target))).Nodup := by
  intro creators
  induction creators with
  | nil =>
    intro _
    simp [build_network_edges]
  | cons c cs ih =>
    intro hnd
    rw [List.map_cons, List.nodup_cons] at hnd
    obtain ⟨hcni, hnd'⟩ := hnd
    simp only [build_network_edges]
    rw [List.map_append, List.nodup_append]
    refine ⟨inner_sym2_nodup em c.id cs hcni hnd', ih hnd', ?_⟩
    intro pr hpr hpr'
    rw [List.mem_map] at hpr hpr'
    obtain ⟨e, he, rfl⟩ := hpr
    obtain ⟨e', he', hpe⟩ := hpr'
    rw [mem_inner_flatten] at he
    obtain ⟨c2, hc2, hec⟩ := he
    have h1 := edgeCandidate_sym2_eq em c.id c2.id e hec
    obtain ⟨hs', ht'⟩ := build_endpoints em cs e' he'
    have hp : s(c.id, c2.id) = s(e'.source, e'.target) :=
      h1.symm.trans hpe.symm
    rcases Sym2.eq_iff.mp hp with ⟨ha, _⟩ | ⟨ha, _⟩
    · exact hcni (ha ▸ hs')
    · exact hcni (ha ▸ ht')

/-- C3 (amended): when the creator nodes carry pairwise-distinct ids, the
edge list of `build_network_edges` has no self-edge and at most one edge
per unordered pair of identities, and for every ordered-in-the-list pair
of creators both possessing an embedding, an edge on that unordered pair
exists iff their cosine similarity reaches the threshold, every such edge
weighing the similarity rounded to 3 decimal places. -/
theorem C3_amended_network_edge_invariants (creators : List Creator)
    (em : List (String × List ℝ)) (hids : (creators.map (·.id)).Nodup) :
    (∀ e ∈ build_network_edges creators em, e.source ≠ e.target) ∧
    ((build_network_edges creators em).map
      (fun e => s(e.source, e.target))).Nodup ∧
    (∀ ca cb va vb, List.Sublist [ca, cb] creators →
      lookupEmb em ca.id = some va → lookupEmb em cb.id = some vb →
      ((∃ e ∈ build_network_edges creators em,
          s(e.source, e.target) = s(ca.id, cb.id)) ↔
        SIMILARITY_THRESHOLD ≤ cosine_similarity va vb) ∧
      (∀ e ∈ build_network_edges creators em,
        s(e.source, e.target) = s(ca.id, cb.id) →
        e.weight = round3 (cosine_similarity va vb))) := by
  refine ⟨?_, build_network_edges_sym2_nodup em creators hids, ?_⟩
  · intro e he
    obtain ⟨c1, c2, hsub, hec⟩ := (mem_build_network_edges em creators e).mp he
    obtain ⟨v1, v2, _, _, _, rfl⟩ := mem_edgeCandidate em c1.id c2.id e hec
    have hnd : (List.map (fun x : Creator => x.id) [c1, c2]).Nodup :=
      hids.sublist (List.Sublist.map (fun x : Creator => x.id) hsub)
    simpa using hnd
  · intro ca cb va vb hsub hla hlb
    constructor
    · constructor
      · rintro ⟨e, he, hpair⟩
        obtain ⟨c1, c2, _, hec⟩ := (mem_build_network_edges em creators e).mp he
        obtain ⟨v1, v2, hl1, hl2, hthr, rfl⟩ := mem_edgeCandidate em c1.id c2.id e hec
        simp only at hpair
        rcases Sym2.eq_iff.mp hpair with ⟨h1, h2⟩ | ⟨h1, h2⟩
        · rw [h1, hla] at hl1
          rw [h2, hlb] at hl2
          rw [show v1 = va from (Option.some_inj.mp hl1).symm,
            show v2 = vb from (Option.some_inj.mp hl2).symm] at hthr
          exact hthr
        · rw [h1, hlb] at hl1
          rw [h2, hla] at hl2
          rw [show v1 = vb from (Option.some_inj.mp hl1).symm,
            show v2 = va from (Option.some_inj.mp hl2).symm,
            cosine_similarity_comm vb va] at hthr
          exact hthr
      · intro hthr
        have hmem : Edge.mk ca.id cb.id (round3 (cosine_similarity va vb))
            (round3 (cosine_similarity va vb))
            ∈ build_network_edges creators em := by
          rw [mem_build_network_edges]
          refine ⟨ca, cb, hsub, ?_⟩
          rw [edgeCandidate_eq em ca.id cb.id va vb hla hlb, if_pos hthr]
          simp
        exact ⟨_, hmem, rfl⟩
    · intro e he hpair
      obtain ⟨c1, c2, _, hec⟩ := (mem_build_network_edges em creators e).mp he
      obtain ⟨v1, v2, hl1, hl2, hthr, rfl⟩ := mem_edgeCandidate em c1.id c2.id e hec
      simp only at hpair
      rcases Sym2.eq_iff.mp hpair with ⟨h1, h2⟩ | ⟨h1, h2⟩
      · rw [h1, hla] at hl1
        rw [h2, hlb] at hl2
        show round3 (cosine_similarity v1 v2) = round3 (cosine_similarity va vb)
        rw [show v1 = va from (Option.some_inj.mp hl1).symm,
          show v2 = vb from (Option.some_inj.mp hl2).symm]
      · rw [h1, hlb] at hl1
        rw [h2, hla] at hl2
        show round3 (cosine_similarity v1 v2) = round3 (cosine_similarity va vb)
        rw [show v1 = vb from (Option.some_inj.mp hl1).symm,
          show v2 = va from (Option.some_inj.mp hl2).symm,
          cosine_similarity_comm vb va]

theorem cosine_similarity_unit_ones : cosine_similarity [(1 : ℝ)] [1] = 1 := by
  have hmag : magnitude [(1 : ℝ)] = 1 := by
    simp [magnitude]
  simp [cosine_similarity, dotProduct, hmag]

theorem threshold_le_unit_ones :
    SIMILARITY_THRESHOLD ≤ cosine_similarity [(1 : ℝ)] [1] := by
  rw [cosine_similarity_unit_ones]
  norm_num [SIMILARITY_THRESHOLD]

/-- C3 fails as stated, in two ways.  First, nothing stops duplicate
creator ids: with the creator list `[{id: "a"}, {id: "a"}]` and an
embedding for `"a"`, the `i < j` loop compares the two copies and emits
an edge whose source equals its target.  Second, the edge rule is not
"for every unordered pair of identities possessing an embedding": with an
empty creator list, two identities with identical embeddings (similarity
1 ≥ 0.7) still get no edge, because pairs are drawn from the creator
list, not from the embeddings map. -/
theorem C3_counterexample :
    (∃ e ∈ build_network_edges [⟨"a"⟩, ⟨"a"⟩] [("a", [(1 : ℝ)])],
      e.source = e.target) ∧
    build_network_edges [] [("a", [(1 : ℝ)]), ("b", [1])] = [] ∧
    SIMILARITY_THRESHOLD ≤ cosine_similarity [(1 : ℝ)] [1] ∧
    ("a" : String) ≠ "b" := by
  refine ⟨?_, rfl, threshold_le_unit_ones, by decide⟩
  have hcand : edgeCandidate [("a", [(1 : ℝ)])] "a" "a"
      = [Edge.mk "a" "a" (round3 (cosine_similarity [(1 : ℝ)] [1]))
          (round3 (cosine_similarity [(1 : ℝ)] [1]))] := by
    rw [edgeCandidate_eq [("a", [(1 : ℝ)])] "a" "a" [1] [1] rfl rfl,
      if_pos threshold_le_unit_ones]
  have hbuild : build_network_edges [⟨"a"⟩, ⟨"a"⟩] [("a", [(1 : ℝ)])]
      = edgeCandidate [("a", [(1 : ℝ)])] "a" "a" := by
    simp [build_network_edges]
  rw [hbuild, hcand]
  exact ⟨_, List.mem_singleton_self _, rfl⟩

/-- Witness for the amended C3 at two distinct creators with identical
embeddings: similarity 1 reaches the 0.7 threshold, so the edge on the
unordered pair exists. -/
theorem C3_amended_network_edge_invariants_witness :
    ((([⟨"a"⟩, ⟨"b"⟩] : List Creator).map (fun x => x.id)).Nodup ∧
      List.Sublist [(⟨"a"⟩ : Creator), ⟨"b"⟩] [⟨"a"⟩, ⟨"b"⟩] ∧
      lookupEmb [("a", [(1 : ℝ)]), ("b", [1])] "a" = some [1] ∧
      lookupEmb [("a", [(1 : ℝ)]), ("b", [1])] "b" = some [1] ∧
      SIMILARITY_THRESHOLD ≤ cosine_similarity [(1 : ℝ)] [1]) ∧
    ∃ e ∈ build_network_edges [⟨"a"⟩, ⟨"b"⟩] [("a", [(1 : ℝ)]), ("b", [1])],
      s(e.source, e.target) = s("a", "b") := by
  have hids : (([⟨"a"⟩, ⟨"b"⟩] : List Creator).map (fun x => x.id)).Nodup := by
    decide
  refine ⟨⟨hids, List.Sublist.refl _, rfl, rfl, threshold_le_unit_ones⟩, ?_⟩
  exact ((C3_amended_network_edge_invariants [⟨"a"⟩, ⟨"b"⟩]
      [("a", [(1 : ℝ)]), ("b", [1])] hids).2.2 ⟨"a"⟩ ⟨"b"⟩ [1] [1]
      (List.Sublist.refl _) rfl rfl).1.mpr threshold_le_unit_ones

/-- Resolution step 1: a conventional cursor field at the top level of a
dict payload (fetcher.py lines 164-167). -/
def extractTop : JVal → Option JVal
  | .obj kvs => convLookup kvs
  | _ => none

/-- The `data` wrapper examined by `_extract_next_cursor`: present,
truthy, and a dict (fetcher.py line 169). -/
def dataDict (kvs : List (String × JVal)) : Option (List (String × JVal)) :=
  match dictGet kvs "data" with
  | some dv =>
    if dv.truthy then
      match dv with
      | .obj dkvs => some dkvs
      | _ => none
    else none
  | none => none

/-- Resolution step 2: the conventional cursor fields one level down
inside the `data` wrapper (fetcher.py lines 171-173). -/
def extractDataConv : JVal → Option JVal
  | .obj kvs =>
    match dataDict kvs with
    | some dkvs => convLookup dkvs
    | none => none
  | _ => none

/-- Resolution step 3: the `data` wrapper's own `page_info.end_cursor`
(fetcher.py lines 175-180). -/
def extractDataPageInfo : JVal → Option JVal
  | .obj kvs =>
    match dataDict kvs with
    | some dkvs => dataPageInfoCursor dkvs
    | none => none
  | _ => none

/-- Resolution step 4: the recursive scan of the whole dict payload for
any conventional cursor key, max-id keys included (fetcher.py lines
182-196). -/
def extractRecConv : JVal → Option JVal
  | .obj kvs => findKeyIn conventionalCursorKeys (.obj kvs)
  | _ => none

theorem extract_next_cursor_decomp (d : JVal) :
    extract_next_cursor d
      = (extractTop d).or ((extractDataConv d).or
          ((extractDataPageInfo d).or (extractRecConv d))) := by
  cases d with
  | obj kvs =>
    simp only [extract_next_cursor, extractTop, extractDataConv,
      extractDataPageInfo, extractRecConv]
    cases hc : convLookup kvs with
    | some v => rfl
    | none =>
      simp only [Option.none_or]
      cases hd : dictGet kvs "data" with
      | none => simp [dataDict, hd]
      | some dv =>
        by_cases ht : dv.truthy
        · cases dv with
          | obj dkvs =>
            simp only [dataDict, hd, ht, if_true]
            cases hcd : convLookup dkvs with
            | some v => rfl
            | none =>
              simp only [Option.none_or]
              cases hpi : dataPageInfoCursor dkvs with
              | some v => rfl
              | none => rfl
          | null => simp [dataDict, hd, ht] at ht ⊢
          | bool b => simp [dataDict, hd, ht]
          | num q => simp [dataDict, hd, ht]
          | str s => simp [dataDict, hd, ht]
          | arr xs => simp [dataDict, hd, ht]
        · have ht' : dv.truthy = false := by simpa using ht
          simp [dataDict, hd, ht']
  | null => rfl
  | bool b => rfl
  | num q => rfl
  | str s => rfl
  | arr xs => rfl

theorem resolveCursor_eq_or (d : JVal) :
    resolveCursor d = (extract_next_cursor d).or
      ((findPageInfoEndCursor d).or ((findLastNodeId d).or
        (findKeyIn ["max_id", "next_max_id"] d))) := by
  unfold resolveCursor find_candidate_max_id
  cases hex : extract_next_cursor d with
  | some v => rfl
  | none =>
    rw [Option.none_or]
    cases hpi : findPageInfoEndCursor d with
    | some v => rfl
    | none =>
      rw [Option.none_or]
      cases hln : findLastNodeId d with
      | some v => rfl
      | none => rw [Option.none_or]

/-- C9 fails as stated: the recursive conventional-key fallback of
`_extract_next_cursor` (which also matches `max_id`) runs before the
dedicated recursive page-info step of `_find_candidate_max_id`.  For a
payload whose deep `max_id` precedes a page_info end-cursor that is not
under the `data` wrapper, the `max_id` value is returned, not the
pagination-info end-cursor the claim promises. -/
theorem C9_counterexample :
    resolveCursor (.obj [("wrapper", .obj [("max_id", .str "m")]),
        ("thing", .obj [("page_info", .obj [("end_cursor", .str "c")])])])
      = some (.str "m") ∧
    findPageInfoEndCursor (.obj [("wrapper", .obj [("max_id", .str "m")]),
        ("thing", .obj [("page_info", .obj [("end_cursor", .str "c")])])])
      = some (.str "c") ∧
    JVal.str "m" ≠ JVal.str "c" := by
  refine ⟨by decide, by decide, by decide⟩

/-- C9 (amended): the implemented resolution order is (1) top-level
conventional field, (2) the same fields inside the `data` wrapper, (3)
the `data` wrapper's `page_info` end-cursor, (4) a recursive document-
order search for any conventional cursor key — the max-id keys included —
then (5) the recursive page-info end-cursor, (6) the last element's id of
a recursive `edges`/`items` list, and (7) the last-resort recursive
max-id search.  A pagination-info end-cursor therefore beats a deep
max-id key exactly when it sits under the top-level `data` wrapper. -/
theorem C9_amended_cursor_priority (d : JVal) :
    (resolveCursor d
      = (extractTop d).or ((extractDataConv d).or
          ((extractDataPageInfo d).or ((extractRecConv d).or
            ((findPageInfoEndCursor d).or ((findLastNodeId d).or
              (findKeyIn ["max_id", "next_max_id"] d))))))) ∧
    (∀ c, extractTop d = none → extractDataConv d = none →
      extractDataPageInfo d = some c → resolveCursor d = some c) := by
  have hdec : resolveCursor d
      = (extractTop d).or ((extractDataConv d).or
          ((extractDataPageInfo d).or ((extractRecConv d).or
            ((findPageInfoEndCursor d).or ((findLastNodeId d).or
              (findKeyIn ["max_id", "next_max_id"] d)))))) := by
    rw [resolveCursor_eq_or, extract_next_cursor_decomp]
    simp [Option.or_assoc]
  refine ⟨hdec, ?_⟩
  intro c h1 h2 h3
  rw [hdec, h1, h2, h3]
  rfl

/-- Witness for the amended C9: a payload whose `data.page_info.end_cursor`
is `"c"` and which carries an unrelated deep `max_id` `"m"` resolves to
`"c"`. -/
theorem C9_amended_cursor_priority_witness :
    (extractTop (.obj [("data", .obj [("page_info",
          .obj [("end_cursor", .str "c")])]),
        ("x", .obj [("max_id", .str "m")])]) = none ∧
      extractDataConv (.obj [("data", .obj [("page_info",
          .obj [("end_cursor", .str "c")])]),
        ("x", .obj [("max_id", .str "m")])]) = none ∧
      extractDataPageInfo (.obj [("data", .obj [("page_info",
          .obj [("end_cursor", .str "c")])]),
        ("x", .obj [("max_id", .str "m")])]) = some (.str "c")) ∧
    resolveCursor (.obj [("data", .obj [("page_info",
        .obj [("end_cursor", .str "c")])]),
      ("x", .obj [("max_id", .str "m")])]) = some (.str "c") :=
  ⟨⟨by decide, by decide, by decide⟩,
    (C9_amended_cursor_priority _).2 (.str "c")
      (by decide) (by decide) (by decide)⟩
